import Mathlib

/-!
# Verification of the DUT face-recognition attendance backend

Shallow embedding of `server/app.py`.  Conventions used throughout:

* times of day are whole seconds in `[0, 86400)` (`Nat`);
* instants (timestamps) are whole seconds since an epoch, `Nat` for the
  attendance tables and `Int` for the simulated-clock arithmetic, where
  differences of instants occur;
* database tables are Lean lists threaded through the functions that
  read and write them; inserts append to the list;
* external effects (the vision model, the mail relay, auth) enter the
  embedded functions as explicit parameters describing their outcome.
-/

set_option autoImplicit false

namespace DutAttendance

/-- Seconds in one calendar day. -/
def daySeconds : Nat := 86400

/-- One `class_timetable` row fetched for the current weekday.
`start` is the parsed `start_time` column, as seconds of day. -/
structure TSession where
  id : Nat
  module_id : Nat
  start : Nat
deriving Repr, DecidableEq

/-- The attendance-window end time computed by `get_current_class_session`:
`(datetime.combine(date, start_time) + timedelta(minutes=30)).time()`.
Taking `.time()` of the shifted datetime reduces modulo one day, so a
start time later than 23:30 wraps past midnight. -/
def attendance_end (start : Nat) : Nat := (start + 1800) % daySeconds

/-- The membership test `start_time <= current_time <= attendance_end_time`
from `get_current_class_session`, on a time of day `t`. -/
def inWindow (s : TSession) (t : Nat) : Bool :=
  decide (s.start ≤ t) && decide (t ≤ attendance_end s.start)

/-- `get_current_class_session`: given the `class_timetable` rows for the
current weekday and the current time of day `t`, return the first row
whose attendance window contains `t`, else `none`. -/
def get_current_class_session (sessions : List TSession) (t : Nat) : Option TSession :=
  sessions.find? (fun s => inWindow s t)

theorem inWindow_false_of_all {L : List TSession} {t : Nat}
    (h : ∀ s ∈ L, inWindow s t = false) :
    get_current_class_session L t = none := by
  unfold get_current_class_session
  rw [List.find?_eq_none]
  intro s hs
  simp [h s hs]

theorem find?_first_match {L1 L2 : List TSession} {e : TSession} {t : Nat}
    (hfirst : ∀ s ∈ L1, inWindow s t = false)
    (he : inWindow e t = true) :
    List.find? (fun s => inWindow s t) (L1 ++ e :: L2) = some e := by
  induction L1 with
  | nil => simp [List.find?_cons, he]
  | cons a as ih =>
      have ha : inWindow a t = false := hfirst a (List.mem_cons_self a as)
      simp only [List.cons_append, List.find?_cons, ha]
      exact ih (fun s hs => hfirst s (List.mem_cons_of_mem a hs))

/-- C1 counterexample: a timetable entry starting at 23:45:00 (second
85500 of the day).  The simulated time of day 23:50:00 (second 85800)
lies in the closed interval `[T, T + 30min]`, yet
`get_current_class_session` returns `none`, because the computed end
time wraps to 00:15:00 and the window test `start ≤ t ≤ end` is
unsatisfiable. -/
theorem get_current_class_session_wraps_counterexample :
    get_current_class_session [⟨1, 1, 85500⟩] 85800 = none ∧
      85500 ≤ 85800 ∧ 85800 ≤ 85500 + 1800 := by
  refine ⟨?_, by decide, by decide⟩
  decide

/-- C1 (amended): for a timetable entry `e` whose 30-minute window does
not cross midnight (`e.start + 1800 < 86400`), and that is the first
entry of the day's list whose window contains the query time,
`get_current_class_session` returns `e` for every time of day
`t ∈ [start, start + 30min]`, and returns `none` at any time
`t' ≥ start + 30min + 1s` that no other entry's window contains. -/
theorem get_current_class_session_window (L1 L2 : List TSession)
    (e : TSession) (t t' : Nat)
    (hwrap : e.start + 1800 < 86400)
    (ht1 : e.start ≤ t) (ht2 : t ≤ e.start + 1800)
    (hfirst : ∀ s ∈ L1, inWindow s t = false)
    (ht' : e.start + 1800 + 1 ≤ t')
    (hothers : ∀ s ∈ L1 ++ L2, inWindow s t' = false) :
    get_current_class_session (L1 ++ e :: L2) t = some e ∧
      get_current_class_session (L1 ++ e :: L2) t' = none := by
  have hend : attendance_end e.start = e.start + 1800 := by
    unfold attendance_end
    exact Nat.mod_eq_of_lt hwrap
  constructor
  · unfold get_current_class_session
    apply find?_first_match hfirst
    unfold inWindow
    simp [hend, ht1, ht2]
  · apply inWindow_false_of_all
    intro s hs
    rcases List.mem_append.mp hs with h1 | h2
    · exact hothers s (List.mem_append.mpr (Or.inl h1))
    · rcases List.mem_cons.mp h2 with rfl | h3
      · unfold inWindow
        have : ¬ (t' ≤ attendance_end s.start) := by
          rw [hend]; omega
        simp [this]
      · exact hothers s (List.mem_append.mpr (Or.inr h3))

/-- Witness for `get_current_class_session_window` at a concrete input:
one entry starting at 01:00:00, queried at 01:00:00 and at 01:30:01. -/
theorem get_current_class_session_window_witness :
    get_current_class_session [⟨1, 1, 3600⟩] 3600 = some ⟨1, 1, 3600⟩ ∧
      get_current_class_session [⟨1, 1, 3600⟩] 5401 = none := by
  have h := get_current_class_session_window [] [] ⟨1, 1, 3600⟩ 3600 5401
    (by decide) (by decide) (by decide)
    (by intro s hs; cases hs) (by decide)
    (by intro s hs; cases hs)
  simpa using h

/-! ## Time-simulation subsystem (`get_system_time`, §4.2) -/

/-- The process-local `system_time_settings` cache.  Timestamps are whole
seconds (`Int`). -/
structure TimeCache where
  override_enabled : Bool
  simulated_start_time : Option Int
  real_time_at_set : Option Int
  last_checked : Option Int
deriving Repr, DecidableEq

/-- The relevant columns of the `system_settings` singleton row. -/
structure DbSettings where
  override_enabled : Bool
  simulated_datetime : Option Int
deriving Repr, DecidableEq

/-- The `seconds` attribute of a Python `timedelta` of `d` whole seconds:
the delta is normalised to `(days, seconds)` with `0 ≤ seconds < 86400`,
so the attribute is `d` modulo one day (floor convention), not the total
elapsed seconds. -/
def timedelta_seconds (d : Int) : Int := d % 86400

/-- The cache-refresh condition of `get_system_time`:
`not last_checked or (real_now - last_checked).seconds > 10`. -/
def time_refetches (c : TimeCache) (real_now : Int) : Bool :=
  match c.last_checked with
  | none => true
  | some lc => decide (timedelta_seconds (real_now - lc) > 10)

/-- `get_system_time`.  `db` is the outcome of the `system_settings`
fetch when one happens: `some s` for a successful read of the singleton
row, `none` for a raised data-access error.  Returns the computed
current time together with the updated cache.  The source converts the
simulated start to the Africa/Johannesburg zone before adding the
elapsed real time; as an instant that conversion is the identity, so it
does not appear in the seconds model. -/
def get_system_time (c : TimeCache) (db : Option DbSettings) (real_now : Int) :
    Int × TimeCache :=
  let c1 :=
    if time_refetches c real_now then
      match db with
      | some s =>
          let c' :=
            if c.simulated_start_time ≠ s.simulated_datetime ∨
                c.override_enabled ≠ s.override_enabled then
              { c with simulated_start_time := s.simulated_datetime,
                       real_time_at_set := some real_now }
            else c
          { c' with override_enabled := s.override_enabled,
                    last_checked := some real_now }
      | none => { c with override_enabled := false }
    else c
  match c1.override_enabled, c1.simulated_start_time, c1.real_time_at_set with
  | true, some sim, some pin => (sim + (real_now - pin), c1)
  | _, _, _ => (real_now, c1)

/-- C3: with the override enabled, simulated start `S` and pin `R0`
cached, and the persisted settings row still holding the same override
flag and simulated start (so a cache refresh, if one fires, observes no
change and does not re-pin), `get_system_time` at real time `R0 + Δ`
returns `S + Δ`: simulated time advances in lockstep with real time. -/
theorem get_system_time_advances (S R0 Δ lc : Int) (db : Option DbSettings)
    (hdb : db = some ⟨true, some S⟩ ∨
      time_refetches ⟨true, some S, some R0, some lc⟩ (R0 + Δ) = false) :
    (get_system_time ⟨true, some S, some R0, some lc⟩ db (R0 + Δ)).1 = S + Δ := by
  rcases hdb with rfl | hno
  · unfold get_system_time
    by_cases hf : time_refetches ⟨true, some S, some R0, some lc⟩ (R0 + Δ) = true
    · simp only [hf, if_true]
      simp only [ne_eq, not_true_eq_false, or_self, if_neg, false_or]
      norm_num
    · simp only [Bool.not_eq_true] at hf
      simp only [hf, Bool.false_eq_true, if_false]
      norm_num
  · unfold get_system_time
    simp only [hno, Bool.false_eq_true, if_false]
    norm_num

/-- Witness for `get_system_time_advances`: override set to simulated
start 1000 pinned at real time 0, queried 5 real seconds later with the
settings row unchanged. -/
theorem get_system_time_advances_witness :
    (get_system_time ⟨true, some 1000, some 0, some 0⟩
      (some ⟨true, some 1000⟩) (0 + 5)).1 = 1000 + 5 :=
  get_system_time_advances 1000 0 5 0 (some ⟨true, some 1000⟩) (Or.inl rfl)

/-- C5 counterexample: the refresh test compares the Python `timedelta`
`seconds` component, not the total elapsed time.  With `last_checked`
86400 seconds (exactly one day) in the past — elapsed time well over 10
seconds — no re-fetch happens: with a cached override (start 5000,
pinned at 0) and a data store that would fail the fetch (which would
force the override off and yield real time 86400), `get_system_time`
still returns the simulated time 91400. -/
theorem get_system_time_stale_cache_counterexample :
    time_refetches ⟨true, some 5000, some 0, some 0⟩ 86400 = false ∧
      (86400 : Int) - 0 > 10 ∧
      (get_system_time ⟨true, some 5000, some 0, some 0⟩ none 86400).1 = 91400 := by
  refine ⟨by decide, by decide, ?_⟩
  decide

/-- C5 (amended): the `SystemSettings` re-fetch fires exactly when the
cached `last_checked` is unset or the `seconds` component (elapsed time
modulo one day, per Python `timedelta.seconds`) of the elapsed real time
exceeds 10.  Hence for an elapsed time of at most 10 seconds no fetch
occurs, and for more than 10 seconds a fetch occurs only as long as the
elapsed time is below one day; at near-whole-day multiples of elapsed
time the fetch is skipped. -/
theorem time_refetches_iff (b : Bool) (sim pin : Option Int) (lc now : Int) :
    (time_refetches ⟨b, sim, pin, none⟩ now = true) ∧
    (time_refetches ⟨b, sim, pin, some lc⟩ now =
      decide ((now - lc) % 86400 > 10)) ∧
    (0 ≤ now - lc → now - lc ≤ 10 →
      time_refetches ⟨b, sim, pin, some lc⟩ now = false) ∧
    (10 < now - lc → now - lc < 86400 →
      time_refetches ⟨b, sim, pin, some lc⟩ now = true) := by
  refine ⟨rfl, rfl, ?_, ?_⟩
  · intro h0 h10
    unfold time_refetches timedelta_seconds
    simp only [decide_eq_false_iff_not, not_lt]
    rw [Int.emod_eq_of_lt h0 (by omega)]
    exact h10
  · intro h10 hday
    unfold time_refetches timedelta_seconds
    simp only [decide_eq_true_eq]
    rw [Int.emod_eq_of_lt (by omega) hday]
    exact h10

/-- Witness for `time_refetches_iff` at concrete inputs: `lc = 0`,
`now = 7` (elapsed 7 seconds: no fetch) — the other conjuncts are
closed. -/
theorem time_refetches_iff_witness :
    time_refetches ⟨false, none, none, some 0⟩ 7 = false :=
  ((time_refetches_iff false none none 0 7).2.2.1) (by decide) (by decide)

/-! ## Face embedding and attendance marking (§4.4, §4.5) -/

/-- A face embedding vector (the numeric values play no role in the
claims, only presence and list emptiness). -/
abbrev Emb := List Int

/-- `get_face_embedding`.  Each detection attempt of the source is a call
into the vision model: `none` models a raised exception, `some objs` a
returned list of detection objects (each carrying an embedding).  On a
raised strict attempt the function retries with relaxed detection; a
successful attempt returns the first embedding if the list is nonempty,
else `None` without falling through to the relaxed attempt. -/
def get_face_embedding (strict relaxed : Option (List Emb)) : Option Emb :=
  match strict with
  | some objs => objs.head?
  | none =>
      match relaxed with
      | some objs => objs.head?
      | none => none

/-- Python truthiness of the embedding result in `if not embedding:`
(`None` and the empty list are both falsy). -/
def embedding_falsy : Option Emb → Bool
  | none => true
  | some e => e.isEmpty

/-- One `attendance_records` row.  `created_at` is whole seconds. -/
structure ARecord where
  student_id : Nat
  module_id : Nat
  status : String
  created_at : Nat
deriving Repr, DecidableEq

/-- The top row of the `match_student` similarity-search RPC result. -/
structure MatchRow where
  id : Nat
  full_name : String
deriving Repr, DecidableEq

/-- Start of the current simulated day: `get_system_time().replace(hour=0,
minute=0, second=0, microsecond=0)` in whole seconds. -/
def today_start (now : Nat) : Nat := now / daySeconds * daySeconds

/-- The duplicate-mark existence check of `api_mark_attendance`: any
`attendance_records` row (of any status) for this student and module
with `created_at >= today_start`. -/
def has_record_today (recs : List ARecord) (sid mid ts : Nat) : Bool :=
  recs.any (fun r => r.student_id == sid && r.module_id == mid &&
    decide (ts ≤ r.created_at))

/-- `api_mark_attendance`.  Inputs model the request and the environment:
`activeClass` is the `get_current_class_session` result, `hasImage`
whether the JSON body carried `image_data`, `strict`/`relaxed` the two
vision-model attempts, `matchRows` the similarity-RPC rows, `override`
the cached `override_enabled` flag, `now` the simulated current time and
`dbNow` the data store's own default `created_at` used when no override
is active.  Returns `((status, body), records)`. -/
def api_mark_attendance (activeClass : Option TSession) (hasImage : Bool)
    (strict relaxed : Option (List Emb)) (matchRows : List MatchRow)
    (override : Bool) (now dbNow : Nat) (recs : List ARecord) :
    (Nat × String) × List ARecord :=
  match activeClass with
  | none => ((403, "The attendance window for this class is not open."), recs)
  | some cls =>
      if !hasImage then ((400, "No image data provided."), recs)
      else if embedding_falsy (get_face_embedding strict relaxed) then
        ((400, "No face could be detected in the image."), recs)
      else
        match matchRows with
        | [] => ((404, "Face not recognized."), recs)
        | best :: _ =>
            if has_record_today recs best.id cls.module_id (today_start now) then
              ((409, best.full_name ++ " has already been marked present for this class."),
                recs)
            else
              ((200, "Attendance marked for " ++ best.full_name ++ "!"),
                recs ++ [⟨best.id, cls.module_id, "present",
                  if override then now else dbNow⟩])

/-- C4 counterexample: with the attendance window open, an image
supplied, and both the strict and the relaxed detection attempts
raising (no embedding extracted), `api_mark_attendance` responds with
HTTP 400 ("No face could be detected in the image."), not 404 as the
claim states. -/
theorem mark_attendance_no_face_counterexample :
    (api_mark_attendance (some ⟨1, 1, 3600⟩) true none none [] true 0 0 []).1 =
      (400, "No face could be detected in the image.") ∧ (400 : Nat) ≠ 404 := by
  constructor
  · rfl
  · decide

/-- C4 (amended): in the attendance-marking flow, whenever no embedding
can be extracted from the submitted live capture (both detection
attempts fail), the response is BadRequest (HTTP 400) with the
no-face-detected message, and no record is written. -/
theorem mark_attendance_no_face (cls : TSession) (strict relaxed : Option (List Emb))
    (matchRows : List MatchRow) (override : Bool) (now dbNow : Nat)
    (recs : List ARecord)
    (hemb : get_face_embedding strict relaxed = none) :
    api_mark_attendance (some cls) true strict relaxed matchRows override now dbNow recs =
      ((400, "No face could be detected in the image."), recs) := by
  unfold api_mark_attendance
  simp [hemb, embedding_falsy]

/-- Witness for `mark_attendance_no_face`: both attempts raise. -/
theorem mark_attendance_no_face_witness :
    api_mark_attendance (some ⟨1, 1, 3600⟩) true none none [] false 5 5 [] =
      ((400, "No face could be detected in the image."), []) :=
  mark_attendance_no_face ⟨1, 1, 3600⟩ none none [] false 5 5 [] rfl

/-- C2: with an open attendance window on a simulated day (override
active), two successive mark-attendance requests that both resolve the
face to the same student succeed first — inserting exactly one
`present` record stamped with the simulated time — and yield Conflict
(409) naming the student on the second attempt, which leaves the
records unchanged. -/
theorem mark_attendance_duplicate (cls : TSession) (recs : List ARecord)
    (sid : Nat) (name : String)
    (strict1 relaxed1 strict2 relaxed2 : Option (List Emb)) (e1 e2 : Emb)
    (now1 now2 dbNow1 dbNow2 : Nat)
    (hemb1 : get_face_embedding strict1 relaxed1 = some e1) (he1 : e1 ≠ [])
    (hemb2 : get_face_embedding strict2 relaxed2 = some e2) (he2 : e2 ≠ [])
    (hday : now1 / daySeconds = now2 / daySeconds)
    (hfresh : has_record_today recs sid cls.module_id (today_start now1) = false) :
    api_mark_attendance (some cls) true strict1 relaxed1 [⟨sid, name⟩]
        true now1 dbNow1 recs =
      (((200, "Attendance marked for " ++ name ++ "!")),
        recs ++ [⟨sid, cls.module_id, "present", now1⟩]) ∧
    api_mark_attendance (some cls) true strict2 relaxed2 [⟨sid, name⟩]
        true now2 dbNow2 (recs ++ [⟨sid, cls.module_id, "present", now1⟩]) =
      (((409, name ++ " has already been marked present for this class.")),
        recs ++ [⟨sid, cls.module_id, "present", now1⟩]) := by
  have hf1 : embedding_falsy (get_face_embedding strict1 relaxed1) = false := by
    rw [hemb1]; simpa [embedding_falsy, List.isEmpty_iff] using he1
  have hf2 : embedding_falsy (get_face_embedding strict2 relaxed2) = false := by
    rw [hemb2]; simpa [embedding_falsy, List.isEmpty_iff] using he2
  constructor
  · unfold api_mark_attendance
    simp [hf1, hfresh]
  · have hdup : has_record_today (recs ++ [⟨sid, cls.module_id, "present", now1⟩])
        sid cls.module_id (today_start now2) = true := by
      unfold has_record_today
      rw [List.any_append]
      apply Bool.or_eq_true_iff.mpr
      right
      simp only [List.any_cons, List.any_nil, Bool.or_false]
      have : today_start now2 ≤ now1 := by
        unfold today_start
        rw [← hday]
        exact Nat.div_mul_le_self now1 daySeconds
      simp [this]
    unfold api_mark_attendance
    simp [hf2, hdup]

/-- Witness for `mark_attendance_duplicate`: one student, empty table,
both calls on simulated day 2. -/
theorem mark_attendance_duplicate_witness :
    api_mark_attendance (some ⟨1, 7, 3600⟩) true (some [[1]]) none [⟨3, "Jane Doe"⟩]
        true 172900 0 [] =
      (((200, "Attendance marked for " ++ "Jane Doe" ++ "!")),
        [] ++ [⟨3, 7, "present", 172900⟩]) ∧
    api_mark_attendance (some ⟨1, 7, 3600⟩) true (some [[1]]) none [⟨3, "Jane Doe"⟩]
        true 173000 0 ([] ++ [⟨3, 7, "present", 172900⟩]) =
      (((409, "Jane Doe" ++ " has already been marked present for this class.")),
        [] ++ [⟨3, 7, "present", 172900⟩]) :=
  mark_attendance_duplicate ⟨1, 7, 3600⟩ [] 3 "Jane Doe"
    (some [[1]]) none (some [[1]]) none [1] [1] 172900 173000 0 0
    rfl (by decide) rfl (by decide) (by decide) (by decide)

/-- C9: the duplicate check of `api_mark_attendance` ignores the record
status.  A student who already has an `absent` record for (student,
module) created at or after the start of the simulated day is rejected
with Conflict (409) naming them, and no `present` record is inserted —
the records are returned unchanged. -/
theorem mark_attendance_rejects_after_absent (cls : TSession)
    (recs : List ARecord) (sid : Nat) (name : String)
    (strict relaxed : Option (List Emb)) (e : Emb)
    (override : Bool) (now dbNow ca : Nat)
    (hemb : get_face_embedding strict relaxed = some e) (he : e ≠ [])
    (hmem : (⟨sid, cls.module_id, "absent", ca⟩ : ARecord) ∈ recs)
    (hca : today_start now ≤ ca) :
    api_mark_attendance (some cls) true strict relaxed [⟨sid, name⟩]
        override now dbNow recs =
      (((409, name ++ " has already been marked present for this class.")), recs) := by
  have hf : embedding_falsy (get_face_embedding strict relaxed) = false := by
    rw [hemb]; simpa [embedding_falsy, List.isEmpty_iff] using he
  have hdup : has_record_today recs sid cls.module_id (today_start now) = true := by
    unfold has_record_today
    rw [List.any_eq_true]
    exact ⟨_, hmem, by simp [hca]⟩
  unfold api_mark_attendance
  simp [hf, hdup]

/-- Witness for `mark_attendance_rejects_after_absent`: a backfilled
`absent` row stamped at 17:00 of the simulated day blocks a later
check-in the same day. -/
theorem mark_attendance_rejects_after_absent_witness :
    api_mark_attendance (some ⟨1, 7, 3600⟩) true (some [[1]]) none [⟨3, "Jane Doe"⟩]
        true 172900 0 [⟨3, 7, "absent", 172860⟩] =
      (((409, "Jane Doe" ++ " has already been marked present for this class.")),
        [⟨3, 7, "absent", 172860⟩]) :=
  mark_attendance_rejects_after_absent ⟨1, 7, 3600⟩ [⟨3, 7, "absent", 172860⟩]
    3 "Jane Doe" (some [[1]]) none [1] true 172900 0 172860
    rfl (by decide) (by simp) (by decide)

/-! ## Startup historical backfill (`backfill_missed_attendance`, §4.6) -/

/-- A `students` row, keyed by the enrolled module code. -/
structure Student where
  id : Nat
  module_code : Nat
deriving Repr, DecidableEq

/-- A `lecture_schedules` row joined with its module's code.
`lecture_date` counts days since the epoch. -/
structure Lecture where
  lecture_date : Nat
  module_id : Nat
  module_code : Nat
deriving Repr, DecidableEq

/-- The backfill existence check: any `attendance_records` row for this
module with `created_at` inside the lecture's calendar day
(`[T00:00:00, T23:59:59]`). -/
def recordsExistOnDay (mid d : Nat) (recs : List ARecord) : Bool :=
  recs.any (fun r => r.module_id == mid &&
    decide (d * daySeconds ≤ r.created_at) &&
    decide (r.created_at ≤ d * daySeconds + 86399))

/-- Students enrolled in a module code. -/
def enrolled_ids (students : List Student) (code : Nat) : List Nat :=
  (students.filter (fun s => s.module_code == code)).map (fun s => s.id)

/-- The `absent` rows synthesised for one missed lecture date, stamped
`17:00:00` (second 61200) on that date. -/
def absent_rows (students : List Student) (l : Lecture) : List ARecord :=
  (enrolled_ids students l.module_code).map
    (fun sid => ⟨sid, l.module_id, "absent", l.lecture_date * daySeconds + 61200⟩)

/-- The body of the backfill loop for one past lecture: skip if any
record exists for the module on that day, skip if no students are
enrolled, otherwise insert the synthesised `absent` rows. -/
def process_lecture (students : List Student) (recs : List ARecord)
    (l : Lecture) : List ARecord :=
  if recordsExistOnDay l.module_id l.lecture_date recs then recs
  else if (enrolled_ids students l.module_code).isEmpty then recs
  else recs ++ absent_rows students l

/-- `backfill_missed_attendance`: every `lecture_schedules` row dated
strictly before today is examined in order, threading the record
table. -/
def backfill_missed_attendance (students : List Student)
    (lectures : List Lecture) (today : Nat) (recs : List ARecord) :
    List ARecord :=
  (lectures.filter (fun l => decide (l.lecture_date < today))).foldl
    (process_lecture students) recs

theorem process_lecture_append (students : List Student) (recs : List ARecord)
    (l : Lecture) : ∃ ex, process_lecture students recs l = recs ++ ex := by
  unfold process_lecture
  by_cases h1 : recordsExistOnDay l.module_id l.lecture_date recs
  · exact ⟨[], by simp [h1]⟩
  · by_cases h2 : (enrolled_ids students l.module_code).isEmpty
    · exact ⟨[], by simp [h1, h2]⟩
    · exact ⟨absent_rows students l, by simp [h1, h2]⟩

theorem foldl_process_append (students : List Student) (L : List Lecture)
    (recs : List ARecord) :
    ∃ ex, L.foldl (process_lecture students) recs = recs ++ ex := by
  induction L generalizing recs with
  | nil => exact ⟨[], by simp⟩
  | cons a as ih =>
      obtain ⟨ex1, hex1⟩ := process_lecture_append students recs a
      obtain ⟨ex2, hex2⟩ := ih (process_lecture students recs a)
      refine ⟨ex1 ++ ex2, ?_⟩
      rw [List.foldl_cons, hex2, hex1, List.append_assoc]

theorem recordsExistOnDay_mono {mid d : Nat} {recs : List ARecord}
    (ex : List ARecord) (h : recordsExistOnDay mid d recs = true) :
    recordsExistOnDay mid d (recs ++ ex) = true := by
  unfold recordsExistOnDay at h ⊢
  rw [List.any_append, h, Bool.true_or]

theorem process_lecture_establishes (students : List Student)
    (recs : List ARecord) (l : Lecture) :
    recordsExistOnDay l.module_id l.lecture_date
        (process_lecture students recs l) = true ∨
      enrolled_ids students l.module_code = [] := by
  by_cases h1 : recordsExistOnDay l.module_id l.lecture_date recs
  · left
    obtain ⟨ex, hex⟩ := process_lecture_append students recs l
    rw [hex]
    exact recordsExistOnDay_mono ex h1
  · by_cases h2 : (enrolled_ids students l.module_code).isEmpty
    · right
      exact List.isEmpty_iff.mp h2
    · left
      unfold process_lecture
      simp only [h1, if_false, h2, if_false, Bool.false_eq_true]
      unfold recordsExistOnDay
      rw [List.any_append]
      apply Bool.or_eq_true_iff.mpr
      right
      rw [List.any_eq_true]
      rcases he : enrolled_ids students l.module_code with _ | ⟨sid, rest⟩
      · exact absurd (List.isEmpty_iff.mpr he) h2
      · refine ⟨⟨sid, l.module_id, "absent", l.lecture_date * daySeconds + 61200⟩,
          ?_, by simp⟩
        unfold absent_rows
        rw [he]
        exact List.mem_map.mpr ⟨sid, List.mem_cons_self _ _, rfl⟩

theorem foldl_process_establishes (students : List Student) (L : List Lecture)
    (recs : List ARecord) :
    ∀ l ∈ L, recordsExistOnDay l.module_id l.lecture_date
        (L.foldl (process_lecture students) recs) = true ∨
      enrolled_ids students l.module_code = [] := by
  induction L generalizing recs with
  | nil => intro l hl; cases hl
  | cons a as ih =>
      intro l hl
      rw [List.foldl_cons]
      rcases List.mem_cons.mp hl with rfl | hmem
      · rcases process_lecture_establishes students recs l with h | h
        · left
          obtain ⟨ex, hex⟩ := foldl_process_append students as
            (process_lecture students recs l)
          rw [hex]
          exact recordsExistOnDay_mono ex h
        · right; exact h
      · exact ih (process_lecture students recs a) l hmem

theorem foldl_process_noop (students : List Student) (L : List Lecture)
    (recs : List ARecord)
    (h : ∀ l ∈ L, recordsExistOnDay l.module_id l.lecture_date recs = true ∨
      enrolled_ids students l.module_code = []) :
    L.foldl (process_lecture students) recs = recs := by
  induction L with
  | nil => rfl
  | cons a as ih =>
      have hstep : process_lecture students recs a = recs := by
        rcases h a (List.mem_cons_self a as) with ha | ha
        · unfold process_lecture
          rw [ha]
          simp
        · unfold process_lecture
          rw [ha]
          by_cases hx : recordsExistOnDay a.module_id a.lecture_date recs <;>
            simp [hx]
      rw [List.foldl_cons, hstep]
      exact ih (fun l hl => h l (List.mem_cons_of_mem a hl))

/-- C6: the startup backfill is idempotent.  Over the same student,
lecture-schedule and "today" data, a second run leaves the attendance
table produced by the first run unchanged: every (module, past lecture
date) pair either already had a record, or received `absent` rows
stamped 17:00 inside that day (found by the second run's existence
check), or has no enrolled students, so no further rows are inserted. -/
theorem backfill_missed_attendance_idempotent (students : List Student)
    (lectures : List Lecture) (today : Nat) (recs : List ARecord) :
    backfill_missed_attendance students lectures today
        (backfill_missed_attendance students lectures today recs) =
      backfill_missed_attendance students lectures today recs := by
  unfold backfill_missed_attendance
  apply foldl_process_noop
  intro l hl
  exact foldl_process_establishes students _ recs l hl

/-! ## At-risk warning subsystem (`check_and_send_at_risk_warning`, §4.7) -/

/-- An `at_risk_warnings` ledger row. -/
structure RiskWarning where
  student_id : Nat
  module_id : Nat
  warning_level : Nat
deriving Repr, DecidableEq

/-- The ledger existence check for one warning level. -/
def hasWarning (s m lvl : Nat) (ledger : List RiskWarning) : Bool :=
  ledger.any (fun w => w.student_id == s && w.module_id == m &&
    w.warning_level == lvl)

/-- `check_and_send_at_risk_warning` (the automatic, exact-equality
trigger).  `total` is the counted number of `absent` records,
`studentFound` whether the student-details fetch returned a row, and
`emailOk` whether `send_email` succeeded.  For each threshold in
`[16, 18, 21]` in order: on an exact count match with no ledger row and
a found student, the email is sent and, if it succeeded, the ledger row
is inserted.  Returns the list of warning levels whose email was sent
together with the updated ledger. -/
def check_and_send_at_risk_warning (s m total : Nat)
    (ledger : List RiskWarning) (studentFound emailOk : Bool) :
    List Nat × List RiskWarning :=
  [16, 18, 21].foldl
    (fun acc t =>
      if total == t then
        if hasWarning s m t acc.2 then acc
        else if !studentFound then acc
        else if emailOk then (acc.1 ++ [t], acc.2 ++ [⟨s, m, t⟩])
        else acc
      else acc)
    ([], ledger)

theorem hasWarning_append (s m lvl : Nat) (ledger ex : List RiskWarning) :
    hasWarning s m lvl (ledger ++ ex) =
      (hasWarning s m lvl ledger || hasWarning s m lvl ex) := by
  unfold hasWarning
  exact List.any_append

/-- C7: for each level in {16, 18, 21}, a student whose absence count
equals exactly that level, with no ledger row for it, receives exactly
one warning email of that level and the ledger row is recorded; and as
long as a ledger row for that level exists, no invocation — whatever
the recounted total — sends that level's email again. -/
theorem at_risk_exact_trigger_dedup (s m lvl : Nat) (ledger : List RiskWarning)
    (hlvl : lvl = 16 ∨ lvl = 18 ∨ lvl = 21) :
    (hasWarning s m lvl ledger = false →
      (check_and_send_at_risk_warning s m lvl ledger true true).1 = [lvl] ∧
        hasWarning s m lvl
          (check_and_send_at_risk_warning s m lvl ledger true true).2 = true) ∧
    (∀ total studentFound emailOk, hasWarning s m lvl ledger = true →
      lvl ∉ (check_and_send_at_risk_warning s m total ledger
        studentFound emailOk).1) := by
  constructor
  · intro hfresh
    rcases hlvl with rfl | rfl | rfl
    · have hres : check_and_send_at_risk_warning s m 16 ledger true true =
          ([16], ledger ++ [⟨s, m, 16⟩]) := by
        simp [check_and_send_at_risk_warning, hfresh]
      rw [hres, hasWarning_append]
      exact ⟨rfl, by simp [hasWarning]⟩
    · have hres : check_and_send_at_risk_warning s m 18 ledger true true =
          ([18], ledger ++ [⟨s, m, 18⟩]) := by
        simp [check_and_send_at_risk_warning, hfresh]
      rw [hres, hasWarning_append]
      exact ⟨rfl, by simp [hasWarning]⟩
    · have hres : check_and_send_at_risk_warning s m 21 ledger true true =
          ([21], ledger ++ [⟨s, m, 21⟩]) := by
        simp [check_and_send_at_risk_warning, hfresh]
      rw [hres, hasWarning_append]
      exact ⟨rfl, by simp [hasWarning]⟩
  · intro total studentFound emailOk hled
    unfold check_and_send_at_risk_warning
    have h16 : ∀ acc : List Nat × List RiskWarning,
        lvl ∉ acc.1 → hasWarning s m lvl acc.2 = true →
        ∀ t, t = 16 ∨ t = 18 ∨ t = 21 →
        lvl ∉ ((fun acc t =>
          if total == t then
            if hasWarning s m t acc.2 then acc
            else if !studentFound then acc
            else if emailOk then (acc.1 ++ [t], acc.2 ++ [⟨s, m, t⟩])
            else acc
          else acc) acc t).1 ∧
        hasWarning s m lvl ((fun acc t =>
          if total == t then
            if hasWarning s m t acc.2 then acc
            else if !studentFound then acc
            else if emailOk then (acc.1 ++ [t], acc.2 ++ [⟨s, m, t⟩])
            else acc
          else acc) acc t).2 = true := by
      intro acc hnot hhas t ht
      by_cases heq : total == t
      · by_cases hw : hasWarning s m t acc.2
        · simp only [heq, if_true, hw, if_true]
          exact ⟨hnot, hhas⟩
        · by_cases hsf : studentFound
          · by_cases hok : emailOk
            · have hne : t ≠ lvl := by
                intro h
                rw [h] at hw
                exact hw hhas
              simp only [heq, if_true, hw, if_false, hsf, Bool.not_true,
                Bool.false_eq_true, if_false, hok, if_true]
              constructor
              · intro hmem
                rcases List.mem_append.mp hmem with h | h
                · exact hnot h
                · rcases List.mem_cons.mp h with h | h
                  · exact hne h.symm
                  · cases h
              · rw [hasWarning_append, hhas, Bool.true_or]
            · simp only [Bool.not_eq_true] at hok
              simp only [heq, if_true, hw, if_false, hsf, Bool.not_true,
                Bool.false_eq_true, if_false, hok, Bool.false_eq_true, if_false]
              exact ⟨hnot, hhas⟩
          · simp only [Bool.not_eq_true] at hsf
            simp only [heq, if_true, hw, if_false, hsf, Bool.not_false, if_true]
            exact ⟨hnot, hhas⟩
      · simp only [heq, Bool.false_eq_true, if_false]
        exact ⟨hnot, hhas⟩
    have step1 := h16 ([], ledger) (by simp) hled 16 (Or.inl rfl)
    have step2 := h16 _ step1.1 step1.2 18 (Or.inr (Or.inl rfl))
    have step3 := h16 _ step2.1 step2.2 21 (Or.inr (Or.inr rfl))
    simpa using step3.1

/-- Witness for `at_risk_exact_trigger_dedup` at level 16 with an empty
ledger. -/
theorem at_risk_exact_trigger_dedup_witness :
    ((check_and_send_at_risk_warning 1 2 16 [] true true).1 = [16] ∧
      hasWarning 1 2 16 (check_and_send_at_risk_warning 1 2 16 [] true true).2
        = true) ∧
    (16 : Nat) ∉ (check_and_send_at_risk_warning 1 2 16 [⟨1, 2, 16⟩]
      true true).1 := by
  constructor
  · exact (at_risk_exact_trigger_dedup 1 2 16 [] (Or.inl rfl)).1 (by decide)
  · exact (at_risk_exact_trigger_dedup 1 2 16 [⟨1, 2, 16⟩] (Or.inl rfl)).2
      16 true true (by decide)

/-! ## Campaign quiz scoring (`api_submit_campaign_response`, §4.10)

Questions are `(question id, stored correct answer)` pairs, the answer
`none` for questions created without one.  Responses are
`(question id, submitted answer)` pairs, the id already parsed from the
JSON key by `int(...)`. -/

/-- The `{question id: correct answer}` dict of
`api_submit_campaign_response`, applied to one key.  A Python dict build
is last-wins, and `.get` yields `None` both for a missing key and for a
stored SQL NULL. -/
def correct_answers_map (questions : List (Nat × Option String)) (qid : Nat) :
    Option String :=
  questions.foldl (fun acc q => if q.1 == qid then q.2 else acc) none

/-- Whether one submitted `(question id, answer)` pair scores a point:
`if correct_answer and student_answer == correct_answer` — the looked-up
correct answer must be truthy (present and nonempty) and string-equal to
the submission. -/
def resp_scores (questions : List (Nat × Option String))
    (p : Nat × String) : Bool :=
  match correct_answers_map questions p.1 with
  | some ca => !(ca == "") && p.2 == ca
  | none => false

/-- The quiz-score loop of `api_submit_campaign_response`. -/
def compute_quiz_score (questions : List (Nat × Option String))
    (responses : List (Nat × String)) : Nat :=
  responses.foldl
    (fun score p => if resp_scores questions p then score + 1 else score) 0

/-- The score stored with the response row: computed only for
`WEEKLY_QUIZ` campaigns, otherwise left `None`. -/
def submitted_score (campaign_type : String)
    (questions : List (Nat × Option String))
    (responses : List (Nat × String)) : Option Nat :=
  if campaign_type == "WEEKLY_QUIZ" then
    some (compute_quiz_score questions responses)
  else none

/-- Stated from the claim's words, for comparison with the code's loop:
the number of questions whose submitted answer is string-equal to that
question's stored correct answer (unanswered questions contribute 0). -/
def claimed_quiz_score (questions : List (Nat × Option String))
    (responses : List (Nat × String)) : Nat :=
  (questions.filter (fun q =>
    match q.2, responses.lookup q.1 with
    | some ca, some ans => ans == ca
    | _, _ => false)).length

theorem foldl_score_count (questions : List (Nat × Option String))
    (responses : List (Nat × String)) (acc : Nat) :
    responses.foldl
        (fun score p => if resp_scores questions p then score + 1 else score)
        acc =
      acc + (responses.filter (resp_scores questions)).length := by
  induction responses generalizing acc with
  | nil => simp
  | cons p ps ih =>
      rw [List.foldl_cons, List.filter_cons]
      by_cases hp : resp_scores questions p
      · rw [if_pos hp, if_pos hp, ih]
        simp [Nat.add_comm, Nat.add_assoc, Nat.add_left_comm]
      · rw [if_neg hp, if_neg hp, ih]

theorem correct_answers_map_absent (questions : List (Nat × Option String))
    (qid : Nat) (init : Option String)
    (h : ∀ q ∈ questions, (q.1 == qid) = false) :
    questions.foldl (fun acc q => if q.1 == qid then q.2 else acc) init =
      init := by
  induction questions generalizing init with
  | nil => rfl
  | cons q qs ih =>
      rw [List.foldl_cons, h q (List.mem_cons_self q qs)]
      simp only [Bool.false_eq_true, if_false]
      exact ih init (fun r hr => h r (List.mem_cons_of_mem q hr))

theorem correct_answers_map_head (q : Nat × Option String)
    (qs : List (Nat × Option String))
    (h : ∀ r ∈ qs, (r.1 == q.1) = false) :
    correct_answers_map (q :: qs) q.1 = q.2 := by
  unfold correct_answers_map
  rw [List.foldl_cons]
  simp only [beq_self_eq_true, if_true]
  exact correct_answers_map_absent qs q.1 q.2 h

theorem correct_answers_map_tail (q : Nat × Option String)
    (qs : List (Nat × Option String)) (qid : Nat)
    (h : (q.1 == qid) = false) :
    correct_answers_map (q :: qs) qid = correct_answers_map qs qid := by
  unfold correct_answers_map
  rw [List.foldl_cons, h]
  simp

theorem resp_scores_cons_ne (q : Nat × Option String)
    (qs : List (Nat × Option String)) (p : Nat × String)
    (h : (q.1 == p.1) = false) :
    resp_scores (q :: qs) p = resp_scores qs p := by
  unfold resp_scores
  rw [correct_answers_map_tail q qs p.1 h]

theorem filter_score_split (q : Nat × Option String)
    (qs : List (Nat × Option String)) (responses : List (Nat × String))
    (hqk : ∀ r ∈ qs, (r.1 == q.1) = false)
    (hne : q.2 ≠ some "")
    (hr : (responses.map Prod.fst).Nodup) :
    (responses.filter (resp_scores (q :: qs))).length =
      (if (match q.2, responses.lookup q.1 with
            | some ca, some ans => ans == ca
            | _, _ => false) then 1 else 0) +
        (responses.filter (resp_scores qs)).length := by
  induction responses with
  | nil => simp
  | cons p ps ih =>
      rw [List.map_cons, List.nodup_cons] at hr
      obtain ⟨hp1, hps⟩ := hr
      by_cases hkey : p.1 = q.1
      · have hbeq : (p.1 == q.1) = true := beq_iff_eq.mpr hkey
        have hbeq' : (q.1 == p.1) = true := beq_iff_eq.mpr hkey.symm
        have hlook : (p :: ps).lookup q.1 = some p.2 := by
          simp [List.lookup, hbeq']
        have hhead : resp_scores (q :: qs) p =
            (match q.2 with
              | some ca => !(ca == "") && p.2 == ca
              | none => false) := by
          unfold resp_scores
          rw [show p.1 = q.1 from hkey,
            correct_answers_map_head q qs hqk]
        have htail : ps.filter (resp_scores (q :: qs)) =
            ps.filter (resp_scores qs) := by
          apply List.filter_congr
          intro r hrmem
          have hrne : r.1 ≠ q.1 := by
            intro hcontra
            exact hp1 ((hkey ▸ hcontra : r.1 = p.1) ▸
              List.mem_map_of_mem Prod.fst hrmem)
          exact resp_scores_cons_ne q qs r
            (beq_eq_false_iff_ne.mpr (fun h => hrne h.symm))
        have hqsp : resp_scores qs p = false := by
          unfold resp_scores
          have : correct_answers_map qs p.1 = none := by
            unfold correct_answers_map
            exact correct_answers_map_absent qs p.1 none
              (fun r hrmem => by rw [hkey]; exact hqk r hrmem)
          rw [this]
        rw [List.filter_cons, List.filter_cons, hhead, hqsp, hlook]
        simp only [Bool.false_eq_true, if_false]
        rw [htail]
        rcases hca : q.2 with _ | ca
        · simp
        · have hcane : ca ≠ "" := by
            intro h; exact hne (by rw [hca, h])
          have : (!(ca == "")) = true := by
            simp [hcane]
          simp only [this, Bool.true_and]
          by_cases hans : p.2 == ca
          · simp [hans, Nat.add_comm]
          · simp [hans]
      · have hbeq1 : (p.1 == q.1) = false := beq_eq_false_iff_ne.mpr hkey
        have hbeq2 : (q.1 == p.1) = false :=
          beq_eq_false_iff_ne.mpr (fun h => hkey h.symm)
        have hlook : (p :: ps).lookup q.1 = ps.lookup q.1 := by
          simp [List.lookup, hbeq2]
        have hhead : resp_scores (q :: qs) p = resp_scores qs p :=
          resp_scores_cons_ne q qs p hbeq2
        rw [List.filter_cons, List.filter_cons, hhead, hlook]
        by_cases hsc : resp_scores qs p
        · simp only [hsc, if_true, List.length_cons]
          rw [ih hps]
          omega
        · simp only [hsc, Bool.false_eq_true, if_false]
          exact ih hps

/-- C8: for a `WEEKLY_QUIZ` campaign the stored score equals the number
of questions whose submitted answer is string-equal to that question's
stored correct answer, given that question ids are distinct, each
question is answered at most once (JSON object keys), and no stored
correct answer is the empty string (the creation endpoint only stores
truthy correct answers); in particular one multiple-choice question
with correct answer "B" scores 1 on submission "B", 0 on "A", and 0
when unanswered. -/
theorem quiz_score_counts_correct_answers
    (questions : List (Nat × Option String))
    (responses : List (Nat × String))
    (hq : (questions.map Prod.fst).Nodup)
    (hr : (responses.map Prod.fst).Nodup)
    (hne : ∀ q ∈ questions, q.2 ≠ some "") :
    submitted_score "WEEKLY_QUIZ" questions responses =
        some (claimed_quiz_score questions responses) ∧
      submitted_score "WEEKLY_QUIZ" [(1, some "B")] [(1, "B")] = some 1 ∧
      submitted_score "WEEKLY_QUIZ" [(1, some "B")] [(1, "A")] = some 0 ∧
      submitted_score "WEEKLY_QUIZ" [(1, some "B")] [] = some 0 := by
  refine ⟨?_, by decide, by decide, by decide⟩
  unfold submitted_score
  simp only [beq_self_eq_true, if_true, Option.some.injEq]
  unfold compute_quiz_score
  rw [foldl_score_count, Nat.zero_add]
  induction questions with
  | nil =>
      have : ∀ p ∈ responses, resp_scores [] p = false := by
        intro p hp
        unfold resp_scores correct_answers_map
        simp
      rw [List.filter_congr this]
      simp [claimed_quiz_score]
  | cons q qs ih =>
      rw [List.map_cons, List.nodup_cons] at hq
      obtain ⟨hq1, hqs⟩ := hq
      have hqk : ∀ r ∈ qs, (r.1 == q.1) = false := by
        intro r hrmem
        rw [beq_eq_false_iff_ne]
        intro hcontra
        exact hq1 (hcontra ▸ List.mem_map_of_mem Prod.fst hrmem)
      rw [filter_score_split q qs responses hqk
        (hne q (List.mem_cons_self q qs)) hr]
      rw [ih hqs (fun r hrmem => hne r (List.mem_cons_of_mem q hrmem))]
      unfold claimed_quiz_score
      rw [List.filter_cons]
      by_cases hg : (match q.2, responses.lookup q.1 with
          | some ca, some ans => ans == ca
          | _, _ => false) = true
      · simp [hg, Nat.add_comm]
      · simp only [Bool.not_eq_true] at hg
        simp [hg]

/-- Witness for `quiz_score_counts_correct_answers`: one question with
correct answer "B", answered "B". -/
theorem quiz_score_counts_correct_answers_witness :
    submitted_score "WEEKLY_QUIZ" [(1, some "B")] [(1, "B")] =
      some (claimed_quiz_score [(1, some "B")] [(1, "B")]) :=
  (quiz_score_counts_correct_answers [(1, some "B")] [(1, "B")]
    (by decide) (by decide) (by decide)).1

/-! ## Weekly summary partition (`send_weekly_summary_emails`, §4.8) -/

/-- One row of the bulk in-window attendance fetch. -/
structure WeekRecord where
  student_id : Nat
  status : String
deriving Repr, DecidableEq

/-- One `defaultdict` update, in insertion order:
`student_data[sid]['present_count'] += inc`. -/
def bump (tallies : List (Nat × Nat)) (sid inc : Nat) : List (Nat × Nat) :=
  match tallies with
  | [] => [(sid, inc)]
  | t :: ts => if t.1 == sid then (t.1, t.2 + inc) :: ts
               else t :: bump ts sid inc

/-- The in-memory per-student present-count aggregation over the week's
fetched records: every record registers its student (creating the dict
entry), `present` ones add 1. -/
def tally_week (records : List WeekRecord) : List (Nat × Nat) :=
  records.foldl
    (fun acc r =>
      bump acc r.student_id (if r.status == "present" then 1 else 0)) []

/-- The perfect/zero partition of `send_weekly_summary_emails`: among
the tallied students (those with at least one fetched record), the ones
with a usable email whose present count equals the week's total
scheduled lectures go to the praise group, the ones with zero to the
check-in group; everyone else gets no weekly email.  Returns the two
groups as student-id lists. -/
def weekly_summary_groups (records : List WeekRecord)
    (emailOf : Nat → Option String) (total : Nat) : List Nat × List Nat :=
  (tally_week records).foldl
    (fun acc p =>
      match emailOf p.1 with
      | none => acc
      | some _ =>
          if p.2 == total then (acc.1 ++ [p.1], acc.2)
          else if p.2 == 0 then (acc.1, acc.2 ++ [p.1])
          else acc)
    ([], [])

theorem bump_keys (tallies : List (Nat × Nat)) (sid inc k : Nat)
    (h : k ∈ (bump tallies sid inc).map Prod.fst) :
    k ∈ tallies.map Prod.fst ∨ k = sid := by
  induction tallies with
  | nil =>
      simp only [bump, List.map_cons, List.map_nil] at h
      rcases List.mem_cons.mp h with h | h
      · exact Or.inr h
      · cases h
  | cons t ts ih =>
      unfold bump at h
      by_cases ht : (t.1 == sid) = true
      · rw [if_pos ht, List.map_cons, List.mem_cons] at h
        rcases h with h | h
        · exact Or.inl (by rw [List.map_cons, List.mem_cons]; exact Or.inl h)
        · exact Or.inl (by rw [List.map_cons, List.mem_cons]; exact Or.inr h)
      · rw [if_neg ht, List.map_cons, List.mem_cons] at h
        rcases h with h | h
        · exact Or.inl (by rw [List.map_cons, List.mem_cons]; exact Or.inl h)
        · rcases ih h with h2 | h2
          · exact Or.inl (by rw [List.map_cons, List.mem_cons]; exact Or.inr h2)
          · exact Or.inr h2

theorem tally_keys (records : List WeekRecord) (acc : List (Nat × Nat))
    (k : Nat)
    (h : k ∈ (records.foldl
      (fun acc r =>
        bump acc r.student_id (if r.status == "present" then 1 else 0))
      acc).map Prod.fst) :
    k ∈ acc.map Prod.fst ∨ ∃ r ∈ records, r.student_id = k := by
  induction records generalizing acc with
  | nil => exact Or.inl h
  | cons r rs ih =>
      rw [List.foldl_cons] at h
      rcases ih _ h with h1 | h1
      · rcases bump_keys acc r.student_id _ k h1 with h2 | h2
        · exact Or.inl h2
        · exact Or.inr ⟨r, List.mem_cons_self r rs, h2.symm⟩
      · obtain ⟨r', hr', hk⟩ := h1
        exact Or.inr ⟨r', List.mem_cons_of_mem r hr', hk⟩

theorem groups_fold_mem (emailOf : Nat → Option String) (total : Nat)
    (L : List (Nat × Nat)) (acc : List Nat × List Nat) (s : Nat)
    (h : s ∈ (L.foldl
      (fun acc p =>
        match emailOf p.1 with
        | none => acc
        | some _ =>
            if p.2 == total then (acc.1 ++ [p.1], acc.2)
            else if p.2 == 0 then (acc.1, acc.2 ++ [p.1])
            else acc)
      acc).1 ∨
      s ∈ (L.foldl
      (fun acc p =>
        match emailOf p.1 with
        | none => acc
        | some _ =>
            if p.2 == total then (acc.1 ++ [p.1], acc.2)
            else if p.2 == 0 then (acc.1, acc.2 ++ [p.1])
            else acc)
      acc).2) :
    (s ∈ acc.1 ∨ s ∈ acc.2) ∨ ∃ p ∈ L, p.1 = s := by
  induction L generalizing acc with
  | nil => exact Or.inl h
  | cons p ps ih =>
      rw [List.foldl_cons] at h
      rcases ih _ h with h1 | h1
      · rcases hmail : emailOf p.1 with _ | email
        · rw [hmail] at h1
          exact Or.inl h1
        · rw [hmail] at h1
          by_cases hperf : p.2 == total
          · rw [if_pos hperf] at h1
            rcases h1 with h1 | h1
            · rcases List.mem_append.mp h1 with h2 | h2
              · exact Or.inl (Or.inl h2)
              · exact Or.inr ⟨p, List.mem_cons_self p ps,
                  (List.mem_singleton.mp h2).symm⟩
            · exact Or.inl (Or.inr h1)
          · rw [if_neg hperf] at h1
            by_cases hzero : p.2 == 0
            · rw [if_pos hzero] at h1
              rcases h1 with h1 | h1
              · exact Or.inl (Or.inl h1)
              · rcases List.mem_append.mp h1 with h2 | h2
                · exact Or.inl (Or.inr h2)
                · exact Or.inr ⟨p, List.mem_cons_self p ps,
                    (List.mem_singleton.mp h2).symm⟩
            · rw [if_neg hzero] at h1
              exact Or.inl h1
      · obtain ⟨p', hp', hk⟩ := h1
        exact Or.inr ⟨p', List.mem_cons_of_mem p hp', hk⟩

/-- C10: the weekly perfect/zero partition ranges only over students
with at least one fetched attendance record in the week window.  A
student `s` with no record row in the window appears in neither the
perfect-attendance group nor the zero-attendance group — so receives no
weekly email — even when lectures were scheduled that week
(`0 < total`). -/
theorem weekly_summary_skips_recordless (records : List WeekRecord)
    (emailOf : Nat → Option String) (total s : Nat)
    (hnorec : ∀ r ∈ records, r.student_id ≠ s) (htotal : 0 < total) :
    s ∉ (weekly_summary_groups records emailOf total).1 ∧
      s ∉ (weekly_summary_groups records emailOf total).2 := by
  have key : ∀ h : s ∈ (weekly_summary_groups records emailOf total).1 ∨
      s ∈ (weekly_summary_groups records emailOf total).2, False := by
    intro h
    unfold weekly_summary_groups at h
    rcases groups_fold_mem emailOf total (tally_week records) ([], []) s h with
      h1 | h1
    · rcases h1 with h1 | h1 <;> cases h1
    · obtain ⟨p, hp, hk⟩ := h1
      have : p.1 ∈ (tally_week records).map Prod.fst :=
        List.mem_map_of_mem Prod.fst hp
      rcases tally_keys records [] p.1 this with h2 | h2
      · cases h2
      · obtain ⟨r, hr, hrk⟩ := h2
        exact hnorec r hr (by rw [hrk, hk])
  exact ⟨fun h => key (Or.inl h), fun h => key (Or.inr h)⟩

/-- Witness for `weekly_summary_skips_recordless`: student 1 has no
record in a week with 2 scheduled lectures and one record for
student 2. -/
theorem weekly_summary_skips_recordless_witness :
    1 ∉ (weekly_summary_groups [⟨2, "present"⟩]
        (fun _ => some "a@b.c") 2).1 ∧
      1 ∉ (weekly_summary_groups [⟨2, "present"⟩]
        (fun _ => some "a@b.c") 2).2 :=
  weekly_summary_skips_recordless [⟨2, "present"⟩] (fun _ => some "a@b.c") 2 1
    (by intro r hr; rcases List.mem_singleton.mp hr with rfl; decide)
    (by decide)

end DutAttendance
